import Mathlib

/-!
Verification of the menavky card-game core (menavka.py).

This file gives a shallow embedding of the Field traversal engine and the
card-effect state machine of the repository, and proves or refutes the
frozen claims about it.

Modelling conventions:
* Card identifiers are plain strings, as in the Python source.
* The itertools.cycle iterator over cards_static is modelled by a
  position counter pos : Nat; pulling the iterator returns
  cards_static.getD (pos % length) "" and increments pos.  The default ""
  is only reachable for the empty deck (where the Python next() would
  raise StopIteration).
* Python while-loops without a structural bound are modelled with an
  explicit fuel parameter and an Option result: none means the loop is
  still running after the given number of iterations.
* random.shuffle is modelled by an arbitrary function parameter; the
  theorems that need it assume it permutes its argument.
* Rendering side effects (blits, line drawing, display flip, sleep) are
  modelled as a list of RenderEvent values produced by a visible step.
-/

namespace Menavky

/-- EXTENSION constant of the source module. -/
def EXTENSION : String := "png"

/-- Python str.endswith, used by the source as card.endswith of a suffix. -/
def strEndsWith (s suff : String) : Bool :=
  suff.data.isSuffixOf s.data

/-- State of a Field object: the shuffled deck, the cycle-iterator
position, traversal direction, the renderer counter next_count, the
animation flag and the cached centre-card filename. -/
structure Field where
  animation : Bool
  cards_static : List String
  pos : Nat
  direction : String
  next_count : Int
  current_card_filename : String
deriving DecidableEq

/-- Rendering side effects of one visible advance (Field.__next__ with
visible=True and animation on): reset_img, blit of the centre card,
aaline draw (recorded through the integer factor of the angle and the
deck size), display flip and the pacing sleep. -/
inductive RenderEvent where
  | resetImg : RenderEvent
  | blitCenter : String → RenderEvent
  | drawAngleLine : Int → Nat → RenderEvent
  | flip : RenderEvent
  | sleepFrame : RenderEvent
deriving DecidableEq

/-- Result of one Field.__next__ call: the returned card, the new field
state and the rendering events emitted. -/
structure StepResult where
  card : String
  field : Field
  events : List RenderEvent
deriving DecidableEq

/-- The next_count update done by Field.__next__: minus one for direction
black, plus one otherwise. -/
def Field.bumpCount (f : Field) : Field :=
  { f with next_count := f.next_count + (if f.direction = "black" then -1 else 1) }

/-- One pull of the itertools.cycle iterator over cards_static. -/
def Field.cycleNext (f : Field) : String × Field :=
  (f.cards_static.getD (f.pos % f.cards_static.length) "", { f with pos := f.pos + 1 })

/-- Field.__next__ of the source: the invisible branch just updates
next_count and pulls the cycle; the visible branch first emits the
rendering events (only when animation is on), then does the identical
next_count update and cycle pull. -/
def Field.next (f : Field) (visible : Bool) : StepResult :=
  if !visible then
    let f1 := f.bumpCount
    let p := f1.cycleNext
    ⟨p.1, p.2, []⟩
  else
    let numer : Int := f.next_count - (if f.direction = "black" then 1 else 0)
    let events : List RenderEvent :=
      if f.animation then
        [RenderEvent.resetImg, RenderEvent.blitCenter f.current_card_filename,
         RenderEvent.drawAngleLine numer f.cards_static.length,
         RenderEvent.flip, RenderEvent.sleepFrame]
      else []
    let f1 := f.bumpCount
    let p := f1.cycleNext
    ⟨p.1, p.2, events⟩

/-- Field.next_invisible: __next__ with visible=False, dropping the
(empty) event list. -/
def Field.nextInvisible (f : Field) : String × Field :=
  ((f.next false).card, (f.next false).field)

/-- The card the next advance will return. -/
def Field.nextCard (f : Field) : String :=
  f.cards_static.getD (f.pos % f.cards_static.length) ""

/-- The card returned by the most recent advance (deck position just
behind the cycle pointer). -/
def Field.lastCard (f : Field) : String :=
  f.cards_static.getD ((f.pos - 1) % f.cards_static.length) ""

/-- Field.create: set the direction, remove one instance of the start
card, shuffle the remainder, reinsert the start card at position 0 and
restart the cycle iterator.  The shuffle is an explicit parameter. -/
def Field.create (f : Field) (shuffle : List String → List String)
    (start direction : String) : Field :=
  { f with direction := direction,
           cards_static := start :: shuffle (f.cards_static.erase start),
           pos := 0 }

/-- The while-loop shared by Field.cycle_to_start and the ventilation
branch of Game.run: while card is not the target, card = next_invisible().
Fuel bounds the number of invisible advances; none means the loop was
still spinning when the fuel ran out. -/
def Field.seekLoop : Nat → String → String → Field → Option Field
  | fuel, card, target, f =>
    if card = target then some f
    else
      match fuel with
      | 0 => none
      | fuel' + 1 =>
        let p := f.nextInvisible
        Field.seekLoop fuel' p.1 target p.2

/-- Field.cycle_to_start: reverse the deck and restart the cycle when the
direction changes, then seek invisibly (starting from the sentinel
card = empty string) until the start lab is drawn. -/
def Field.cycleToStart (fuel : Nat) (f : Field) (start_lab direction : String) :
    Option Field :=
  let f1 := if f.direction ≠ direction then
      { f with direction := direction,
               cards_static := f.cards_static.reverse,
               pos := 0,
               next_count := 0 }
    else f
  Field.seekLoop fuel "" start_lab f1

/-- Config.colors_map of the source (a dict with keys 1 and 2; other keys
would raise, and are never used). -/
def colorsMap : Nat → String
  | 1 => "red"
  | 2 => "blue"
  | _ => ""

/-- Config.stripes_map of the source. -/
def stripesMap : Nat → String
  | 1 => "stripe"
  | 2 => "dot"
  | _ => ""

/-- The card counts of Config.cards, as an association list in source
order. -/
def configCards : List (String × Nat) :=
  [("red_stripe_1", 2), ("red_stripe_2", 2), ("red_dot_1", 2), ("red_dot_2", 2),
   ("blue_stripe_1", 2), ("blue_stripe_2", 2), ("blue_dot_1", 2), ("blue_dot_2", 2),
   ("ventilation", 3), ("eyes_mutation", 1), ("stripes_mutation", 1),
   ("colors_mutation", 1), ("blue_lab", 1), ("red_lab", 1), ("yellow_lab", 1)]

/-- Field.__init__ expansion of the count map into the concrete card
list: each card repeated count times, in configuration order. -/
def expandCards : List (String × Nat) → List String
  | [] => []
  | p :: rest => List.replicate p.2 p.1 ++ expandCards rest

/-- Number of copies a configuration assigns to one card name. -/
def configCount : List (String × Nat) → String → Nat
  | [], _ => 0
  | p :: rest, c => (if p.1 = c then p.2 else 0) + configCount rest c

/-- State of a Game object together with the local counter of its run
generator: the field, the current and initial dice values and the
running mutation count of the current round. -/
structure GameState where
  field : Field
  labs : String × String
  eyes : Nat
  stripes : Nat
  colors : Nat
  init_labs : String × String
  init_eyes : Nat
  init_stripes : Nat
  init_colors : Nat
  count : Nat
deriving DecidableEq

/-- The card_to_find format string of Game.run: colors_map of colors,
stripes_map of stripes, and the eyes value printed as an integer. -/
def cardToFind (g : GameState) : String :=
  colorsMap g.colors ++ "_" ++ stripesMap g.stripes ++ "_" ++ toString g.eyes

/-- The if/elif chain of Game.run that flips one target attribute for the
three mutation cards (and ignores the shower card). -/
def applyMutation (g : GameState) (card : String) : GameState :=
  if card = "eyes_mutation" then { g with eyes := if g.eyes = 1 then 2 else 1 }
  else if card = "stripes_mutation" then
    { g with stripes := if g.stripes = 1 then 2 else 1 }
  else if card = "colors_mutation" then
    { g with colors := if g.colors = 1 then 2 else 1 }
  else if card = "shower" then g
  else g

/-- The field at the top of one Game.run loop iteration, after the
assignment of current_card_filename from the freshly formatted
card_to_find. -/
def prepField (g : GameState) : Field :=
  { g.field with current_card_filename := cardToFind g ++ "." ++ EXTENSION }

/-- The card returned by the visible draw at the top of the loop
iteration (card = next(self.field)). -/
def drawnCard (g : GameState) : String := ((prepField g).next true).card

/-- The field state right after that visible draw. -/
def drawnField (g : GameState) : Field := ((prepField g).next true).field

/-- The game state after the if/elif attribute-mutation chain has
processed the drawn card. -/
def afterDraw (g : GameState) : GameState :=
  applyMutation { g with field := drawnField g } (drawnCard g)

/-- One iteration of the while-True loop of Game.run.  It sets
current_card_filename from the freshly formatted card_to_find, draws one
card visibly, then branches: the ventilation branch advances invisibly
until a second ventilation card is drawn (ventFuel bounds that inner
loop) and yields nothing; a mutation card flips its attribute, yields the
card exactly when the local running count equals 3, increments the count
and continues; any other card recomputes card_to_find, yields the card
when it matches and always yields the empty frame marker.  The returned
list holds the values the generator yields during this iteration. -/
def loopIter (ventFuel : Nat) (g : GameState) : Option (GameState × List String) :=
  if drawnCard g = "ventilation" then
    match Field.seekLoop ventFuel ((drawnField g).nextInvisible).1 "ventilation"
        ((drawnField g).nextInvisible).2 with
    | none => none
    | some f3 => some ({ g with field := f3 }, [])
  else
    if strEndsWith (drawnCard g) "_mutation" then
      if g.count = 3 then
        some ({ afterDraw g with count := g.count + 1 }, [drawnCard g])
      else some ({ afterDraw g with count := g.count + 1 }, [])
    else
      if drawnCard g = cardToFind (afterDraw g) then
        some (afterDraw g, [drawnCard g, ""])
      else some (afterDraw g, [""])

/-- The trace of values yielded by the run generator over a bounded
number of loop iterations (fuel); the trace is cut short only when the
inner ventilation loop exhausts its own fuel. -/
def runFuel (ventFuel : Nat) : Nat → GameState → List String
  | 0, _ => []
  | fuel + 1, g =>
    match loopIter ventFuel g with
    | none => []
    | some gys => gys.2 ++ runFuel ventFuel fuel gys.1

/-- Game.replay_correct up to the run() call: re-seek the cursor to the
current labs card under the current direction, reset the dice values to
the initial snapshot (set_init_dice_vals), check the assertion that
animation is off, and switch animation on for the replay. -/
def replayPrep (fuel : Nat) (g : GameState) : Option GameState :=
  match Field.cycleToStart fuel g.field (g.labs.2 ++ "_lab") g.labs.1 with
  | none => none
  | some f1 =>
    let g1 : GameState := { g with
      labs := g.init_labs, eyes := g.init_eyes,
      stripes := g.init_stripes, colors := g.init_colors,
      field := f1 }
    if g1.field.animation then none
    else some { g1 with field := { g1.field with animation := true } }

/-- Step function used to iterate Field.__next__ (visible variant). -/
def Field.step (f : Field) : Field := (f.next true).field

/-- Iterated advancement of the cursor. -/
def Field.advanceN (f : Field) : Nat → Field
  | 0 => f
  | n + 1 => Field.advanceN f.step n

/-! Helper lemmas about one advance of the cursor. -/

lemma Field.next_card (f : Field) (v : Bool) : (f.next v).card = f.nextCard := by
  cases v <;> rfl

lemma Field.next_cards_static (f : Field) (v : Bool) :
    (f.next v).field.cards_static = f.cards_static := by
  cases v <;> rfl

lemma Field.next_pos (f : Field) (v : Bool) : (f.next v).field.pos = f.pos + 1 := by
  cases v <;> rfl

lemma Field.next_direction (f : Field) (v : Bool) :
    (f.next v).field.direction = f.direction := by
  cases v <;> rfl

lemma Field.next_animation (f : Field) (v : Bool) :
    (f.next v).field.animation = f.animation := by
  cases v <;> rfl

lemma Field.nextInvisible_fst (f : Field) : (f.nextInvisible).1 = f.nextCard := rfl

lemma Field.nextInvisible_lastCard (f : Field) :
    Field.lastCard (f.nextInvisible).2 = f.nextCard := rfl

/-- The card returned by an advance is a deck card, except on the empty
deck where the model returns the empty-string default. -/
lemma Field.nextCard_mem_or_empty (f : Field) :
    f.nextCard ∈ f.cards_static ∨ f.nextCard = "" := by
  by_cases h : f.cards_static = []
  · right
    rw [Field.nextCard, h]
    rfl
  · left
    have hlen : 0 < f.cards_static.length := List.length_pos.mpr h
    rw [Field.nextCard, List.getD_eq_getElem _ _ (Nat.mod_lt _ hlen)]
    exact List.getElem_mem _

/-- Invariants of the invisible seek loop: it preserves the deck, the
direction and the animation flag, only moves the cursor forward, and on
success either exited immediately (initial card already the target) or
stopped right after drawing the target. -/
lemma Field.seekLoop_inv : ∀ (fuel : Nat) (card target : String) (f f' : Field),
    Field.seekLoop fuel card target f = some f' →
    f'.cards_static = f.cards_static ∧ f'.direction = f.direction ∧
    f'.animation = f.animation ∧ f.pos ≤ f'.pos ∧
    ((card = target ∧ f' = f) ∨ f'.lastCard = target) := by
  intro fuel
  induction fuel with
  | zero =>
    intro card target f f' h
    rw [Field.seekLoop] at h
    by_cases hc : card = target
    · rw [if_pos hc] at h
      cases h
      exact ⟨rfl, rfl, rfl, Nat.le_refl _, Or.inl ⟨hc, rfl⟩⟩
    · rw [if_neg hc] at h
      exact absurd h (by simp)
  | succ fuel ih =>
    intro card target f f' h
    rw [Field.seekLoop] at h
    by_cases hc : card = target
    · rw [if_pos hc] at h
      cases h
      exact ⟨rfl, rfl, rfl, Nat.le_refl _, Or.inl ⟨hc, rfl⟩⟩
    · rw [if_neg hc] at h
      obtain ⟨h1, h2, h3, h4, h5⟩ := ih _ _ _ _ h
      refine ⟨h1, h2, h3, ?_, ?_⟩
      · exact Nat.le_trans (Nat.le_succ _) h4
      · right
        cases h5 with
        | inl h5 =>
          rw [h5.2, Field.nextInvisible_lastCard, ← Field.nextInvisible_fst]
          exact h5.1
        | inr h5 => exact h5

/-- When the target is absent from the deck (and is not the empty-string
sentinel), the seek loop never exits, whatever the fuel. -/
lemma Field.seekLoop_not_found : ∀ (fuel : Nat) (card target : String) (f : Field),
    target ∉ f.cards_static → target ≠ "" → card ≠ target →
    Field.seekLoop fuel card target f = none := by
  intro fuel
  induction fuel with
  | zero =>
    intro card target f _ _ hc
    rw [Field.seekLoop, if_neg hc]
  | succ fuel ih =>
    intro card target f hmem h0 hc
    rw [Field.seekLoop, if_neg hc]
    refine ih _ _ _ ?_ h0 ?_
    · exact hmem
    · rw [Field.nextInvisible_fst]
      intro he
      cases f.nextCard_mem_or_empty with
      | inl hm => exact hmem (he ▸ hm)
      | inr hm => exact h0 (he.symm.trans hm)

/-- The seek loop exits when the initial card is already the target or
some position reachable within the fuel holds the target. -/
lemma Field.seekLoop_finds : ∀ (fuel : Nat) (card target : String) (f : Field),
    (card = target ∨ ∃ i, i < fuel ∧
      f.cards_static.getD ((f.pos + i) % f.cards_static.length) "" = target) →
    (Field.seekLoop fuel card target f).isSome = true := by
  intro fuel
  induction fuel with
  | zero =>
    intro card target f h
    rcases h with h | ⟨i, hi, _⟩
    · rw [Field.seekLoop, if_pos h]
      rfl
    · exact absurd hi (Nat.not_lt_zero i)
  | succ fuel ih =>
    intro card target f h
    by_cases hc : card = target
    · rw [Field.seekLoop, if_pos hc]
      rfl
    · rw [Field.seekLoop, if_neg hc]
      rcases h with h | ⟨i, hi, hget⟩
      · exact absurd h hc
      cases i with
      | zero =>
        refine ih _ _ _ (Or.inl ?_)
        rw [Field.nextInvisible_fst, Field.nextCard]
        simpa using hget
      | succ j =>
        refine ih _ _ _ (Or.inr ⟨j, Nat.lt_of_succ_lt_succ hi, ?_⟩)
        have harith : f.pos + 1 + j = f.pos + (j + 1) := by omega
        show (f.nextInvisible).2.cards_static.getD
          (((f.nextInvisible).2.pos + j) % (f.nextInvisible).2.cards_static.length) ""
          = target
        have hp : (f.nextInvisible).2.pos = f.pos + 1 := rfl
        have hcs : (f.nextInvisible).2.cards_static = f.cards_static := rfl
        rw [hp, hcs, harith]
        exact hget

/-- Whenever the target occurs in the deck and the fuel is at least the
deck size, the seek loop exits: within deck-size advances the cyclic
cursor passes every deck position. -/
lemma Field.seekLoop_mem_isSome (fuel : Nat) (card target : String) (f : Field)
    (hmem : target ∈ f.cards_static) (hfuel : f.cards_static.length ≤ fuel) :
    (Field.seekLoop fuel card target f).isSome = true := by
  by_cases hc : card = target
  · exact Field.seekLoop_finds _ _ _ _ (Or.inl hc)
  · obtain ⟨j, hj, hget⟩ := List.mem_iff_getElem.mp hmem
    have hn : 0 < f.cards_static.length := Nat.lt_of_le_of_lt (Nat.zero_le j) hj
    have hrlt : f.pos % f.cards_static.length < f.cards_static.length :=
      Nat.mod_lt _ hn
    refine Field.seekLoop_finds _ _ _ _ (Or.inr
      ⟨(j + f.cards_static.length - f.pos % f.cards_static.length) %
        f.cards_static.length, ?_, ?_⟩)
    · exact Nat.lt_of_lt_of_le (Nat.mod_lt _ hn) hfuel
    · have hidx : (f.pos + (j + f.cards_static.length -
          f.pos % f.cards_static.length) % f.cards_static.length) %
          f.cards_static.length = j := by
        rw [← Nat.mod_add_mod, Nat.add_mod_mod]
        have hsum : f.pos % f.cards_static.length +
            (j + f.cards_static.length - f.pos % f.cards_static.length) =
            j + f.cards_static.length := by omega
        rw [hsum, Nat.add_mod_right, Nat.mod_eq_of_lt hj]
      rw [hidx, List.getD_eq_getElem _ _ hj]
      exact hget

/-- C6 core: cycle_to_start terminates when the sought lab card is in the
deck, within deck-size invisible advances, from any cursor position and
for both traversal directions. -/
theorem cycleToStart_terminates (f : Field) (start_lab direction : String)
    (h : start_lab ∈ f.cards_static) :
    (Field.cycleToStart f.cards_static.length f start_lab direction).isSome = true := by
  rw [Field.cycleToStart]
  split
  · refine Field.seekLoop_mem_isSome _ _ _ _ ?_ ?_
    · exact List.mem_reverse.mpr h
    · rw [List.length_reverse]
  · exact Field.seekLoop_mem_isSome _ _ _ _ h (Nat.le_refl _)

/-- Witness for C6 at a concrete deck, cursor position and target. -/
theorem cycleToStart_terminates_witness :
    ("yellow_lab" ∈ ["red_lab", "yellow_lab", "blue_lab"]) ∧
    (Field.cycleToStart 3
      { animation := false, cards_static := ["red_lab", "yellow_lab", "blue_lab"],
        pos := 5, direction := "white", next_count := 0,
        current_card_filename := "" } "yellow_lab" "black").isSome = true := by
  refine ⟨by decide, ?_⟩
  exact cycleToStart_terminates
    { animation := false, cards_static := ["red_lab", "yellow_lab", "blue_lab"],
      pos := 5, direction := "white", next_count := 0,
      current_card_filename := "" } "yellow_lab" "black" (by decide)

/-- The concrete field used to exhibit the behaviour of cycle_to_start on
an absent seek target. -/
def fieldAbsent : Field :=
  { animation := false,
    cards_static := ["red_lab", "blue_lab", "yellow_lab", "ventilation"],
    pos := 0, direction := "white", next_count := 0,
    current_card_filename := "" }

/-- C5: the seek loop of cycle_to_start has no error path.  When the
sought card is absent from the deck the while loop never exits: for every
fuel bound the model reports the loop still running (none), so the source
spins forever instead of raising NotFoundError. -/
theorem cycleToStart_absent_spins_forever :
    ∀ fuel : Nat,
      Field.cycleToStart fuel fieldAbsent "green_lab" "white" = none := by
  intro fuel
  rw [Field.cycleToStart]
  have hne : ¬ fieldAbsent.direction ≠ "white" := by
    intro h
    exact h rfl
  rw [if_neg hne]
  refine Field.seekLoop_not_found fuel "" "green_lab" fieldAbsent ?_ ?_ ?_
  · decide
  · decide
  · decide

/-- Occurrence counts in the expanded card list agree with the
configured counts. -/
lemma count_expandCards : ∀ (cfg : List (String × Nat)) (c : String),
    (expandCards cfg).count c = configCount cfg c := by
  intro cfg c
  induction cfg with
  | nil => rfl
  | cons p rest ih =>
    show (List.replicate p.2 p.1 ++ expandCards rest).count c = _
    rw [List.count_append, List.count_replicate, ih]
    by_cases h : p.1 = c
    · simp [configCount, h]
    · simp [configCount, h]

/-- C7: Field.create keeps exactly the configured multiset of card names
and places the start card first, for every configuration, every
permutation-valued shuffle and every start card present in the deck. -/
theorem create_deck_counts (cfg : List (String × Nat))
    (shuffle : List String → List String) (f : Field) (start direction : String)
    (hf : f.cards_static = expandCards cfg)
    (hs : ∀ l, List.Perm (shuffle l) l)
    (hm : start ∈ expandCards cfg) :
    (∀ c, (Field.create f shuffle start direction).cards_static.count c =
      configCount cfg c) ∧
    (Field.create f shuffle start direction).cards_static.head? = some start := by
  constructor
  · intro c
    have hperm : List.Perm (Field.create f shuffle start direction).cards_static
        (expandCards cfg) := by
      show List.Perm (start :: shuffle (f.cards_static.erase start)) _
      rw [hf]
      exact (List.Perm.cons start (hs _)).trans (List.perm_cons_erase hm).symm
    rw [hperm.count_eq, count_expandCards]
  · rfl

/-- The field whose deck is the full configured card list, used to
instantiate the deck-creation theorem. -/
def fieldFullConfig : Field :=
  { animation := false, cards_static := expandCards configCards,
    pos := 0, direction := "", next_count := 0, current_card_filename := "" }

/-- Witness for C7 at the real configuration of the source, with the
identity permutation as the shuffle and red_lab as the start card. -/
theorem create_deck_counts_witness :
    ((fieldFullConfig.cards_static = expandCards configCards) ∧
     (∀ l : List String, List.Perm (id l) l) ∧
     ("red_lab" ∈ expandCards configCards)) ∧
    ((∀ c, (Field.create fieldFullConfig id "red_lab" "white").cards_static.count c =
       configCount configCards c) ∧
     (Field.create fieldFullConfig id "red_lab" "white").cards_static.head? =
       some "red_lab") := by
  refine ⟨⟨rfl, fun l => List.Perm.refl l, by decide⟩, ?_⟩
  exact create_deck_counts configCards id fieldFullConfig "red_lab" "white" rfl
    (fun l => List.Perm.refl l) (by decide)

/-- Iterated advancement never changes the deck. -/
lemma advanceN_cards_static : ∀ (n : Nat) (f : Field),
    (Field.advanceN f n).cards_static = f.cards_static := by
  intro n
  induction n with
  | zero => intro f; rfl
  | succ n ih =>
    intro f
    show (Field.advanceN f.step n).cards_static = f.cards_static
    rw [ih]
    exact Field.next_cards_static f true

/-- Iterated advancement moves the cycle position forward one per step,
for either direction. -/
lemma advanceN_pos : ∀ (n : Nat) (f : Field),
    (Field.advanceN f n).pos = f.pos + n := by
  intro n
  induction n with
  | zero => intro f; rfl
  | succ n ih =>
    intro f
    show (Field.advanceN f.step n).pos = f.pos + (n + 1)
    rw [ih, Field.step, Field.next_pos]
    omega

/-- C8: advancing the cursor deck-size many times returns to the original
card: the next card to be drawn is unchanged, whatever the deck, the
cursor position and the traversal direction stored in the field. -/
theorem advance_deck_size_returns (f : Field) :
    (Field.advanceN f f.cards_static.length).nextCard = f.nextCard := by
  rw [Field.nextCard, Field.nextCard, advanceN_cards_static, advanceN_pos,
    Nat.add_mod_right]

/-- C9: a visible and an invisible advance return the same card and leave
the field in the same state; the visible flag only changes the emitted
rendering events. -/
theorem next_visible_invisible_agree (f : Field) :
    (f.next true).card = (f.next false).card ∧
    (f.next true).field = (f.next false).field :=
  ⟨rfl, rfl⟩

/-! Helper lemmas about one iteration of the Game.run loop. -/

lemma drawnCard_eq (g : GameState) : drawnCard g = Field.nextCard g.field := rfl

/-- The mutation chain leaves the state unchanged when the drawn card is
not one of the three mutation cards (in particular when its name does
not end in the mutation suffix). -/
lemma applyMutation_of_not_mut (g : GameState) (card : String)
    (h : strEndsWith card "_mutation" = false) : applyMutation g card = g := by
  have h1 : card ≠ "eyes_mutation" := by
    intro hc
    rw [hc] at h
    exact absurd h (by decide)
  have h2 : card ≠ "stripes_mutation" := by
    intro hc
    rw [hc] at h
    exact absurd h (by decide)
  have h3 : card ≠ "colors_mutation" := by
    intro hc
    rw [hc] at h
    exact absurd h (by decide)
  unfold applyMutation
  rw [if_neg h1, if_neg h2, if_neg h3]
  split <;> rfl

/-- Closed form of a loop iteration on a mutation-kind draw. -/
lemma loopIter_mut (g : GameState) (vf : Nat)
    (hnv : Field.nextCard g.field ≠ "ventilation")
    (hm : strEndsWith (Field.nextCard g.field) "_mutation" = true) :
    loopIter vf g = some ({ afterDraw g with count := g.count + 1 },
      if g.count = 3 then [Field.nextCard g.field] else []) := by
  unfold loopIter
  rw [drawnCard_eq, if_neg hnv, if_pos hm]
  by_cases h3 : g.count = 3
  · rw [if_pos h3, if_pos h3]
  · rw [if_neg h3, if_neg h3]

/-- Closed form of a loop iteration on a non-ventilation, non-mutation
draw. -/
lemma loopIter_nonmut (g : GameState) (vf : Nat)
    (hnv : Field.nextCard g.field ≠ "ventilation")
    (hnm : strEndsWith (Field.nextCard g.field) "_mutation" = false) :
    loopIter vf g = some ({ g with field := drawnField g },
      if Field.nextCard g.field = cardToFind g then
        [Field.nextCard g.field, ""] else [""]) := by
  unfold loopIter
  rw [drawnCard_eq, if_neg hnv]
  have hm' : ¬ (strEndsWith (Field.nextCard g.field) "_mutation" = true) := by
    rw [hnm]
    intro hx
    exact Bool.noConfusion hx
  rw [if_neg hm']
  have hAD : afterDraw g = { g with field := drawnField g } := by
    unfold afterDraw
    refine applyMutation_of_not_mut _ _ ?_
    rw [drawnCard_eq]
    exact hnm
  rw [hAD]
  have hctf : cardToFind { g with field := drawnField g } = cardToFind g := rfl
  rw [hctf]
  by_cases hc : Field.nextCard g.field = cardToFind g
  · rw [if_pos hc, if_pos hc]
  · rw [if_neg hc, if_neg hc]

/-- C1 (amended): the mutation counter of Game.run is never reset.  On a
mutation-kind draw it increments and the death outcome is yielded exactly
when the counter already stands at 3, i.e. on the fourth mutation-kind
draw of the whole round; on any other non-ventilation draw the counter is
left unchanged, not reset to 0. -/
theorem run_mutation_count_total (g : GameState) (vf : Nat)
    (hnv : Field.nextCard g.field ≠ "ventilation") :
    ∃ g' ys, loopIter vf g = some (g', ys) ∧
      (strEndsWith (Field.nextCard g.field) "_mutation" = true →
        g'.count = g.count + 1 ∧
        ys = if g.count = 3 then [Field.nextCard g.field] else []) ∧
      (strEndsWith (Field.nextCard g.field) "_mutation" = false →
        g'.count = g.count) := by
  by_cases hm : strEndsWith (Field.nextCard g.field) "_mutation" = true
  · refine ⟨_, _, loopIter_mut g vf hnv hm, fun _ => ⟨rfl, rfl⟩, fun hf => ?_⟩
    rw [hf] at hm
    exact Bool.noConfusion hm
  · have hnm : strEndsWith (Field.nextCard g.field) "_mutation" = false := by
      cases hb : strEndsWith (Field.nextCard g.field) "_mutation"
      · rfl
      · exact absurd hb hm
    exact ⟨_, _, loopIter_nonmut g vf hnv hnm, fun ht => absurd ht hm, fun _ => rfl⟩

/-- C2 (amended): a non-ventilation, non-mutation draw yields the drawn
card followed by the frame marker when it matches the current target,
and yields only the frame marker (a single produced value) when it does
not match. -/
theorem run_yields_per_draw (g : GameState) (vf : Nat)
    (hnv : Field.nextCard g.field ≠ "ventilation")
    (hnm : strEndsWith (Field.nextCard g.field) "_mutation" = false) :
    ∃ g', loopIter vf g = some (g',
      if Field.nextCard g.field = cardToFind g then
        [Field.nextCard g.field, ""] else [""]) :=
  ⟨_, loopIter_nonmut g vf hnv hnm⟩

/-- C3 (amended): the match outcome is not terminal in Game.run.  When
the drawn card equals the current target the iteration yields the card
and then the frame marker, and the generator trace simply continues with
the yields of the successor state when the caller keeps pulling. -/
theorem run_found_not_terminal (g : GameState) (vf fuel : Nat)
    (hnv : Field.nextCard g.field ≠ "ventilation")
    (hnm : strEndsWith (Field.nextCard g.field) "_mutation" = false)
    (hmatch : Field.nextCard g.field = cardToFind g) :
    ∃ g', loopIter vf g = some (g', [cardToFind g, ""]) ∧
      runFuel vf (fuel + 1) g = cardToFind g :: "" :: runFuel vf fuel g' := by
  have hli := loopIter_nonmut g vf hnv hnm
  rw [if_pos hmatch, hmatch] at hli
  refine ⟨_, hli, ?_⟩
  rw [runFuel, hli]
  rfl

/-- C4: on a ventilation draw the engine advances the cursor invisibly
until a second ventilation card is drawn; the iteration yields nothing
(no match check), leaves every target attribute, the mutation counter
and the lab dice untouched, preserves the deck and direction, consumes
at least the two ventilation draws, and ends with a ventilation card as
the last drawn card. -/
theorem run_ventilation_skip (g : GameState)
    (hv : Field.nextCard g.field = "ventilation")
    (hvent : "ventilation" ∈ g.field.cards_static) :
    ∃ g', loopIter g.field.cards_static.length g = some (g', []) ∧
      g'.eyes = g.eyes ∧ g'.stripes = g.stripes ∧ g'.colors = g.colors ∧
      g'.count = g.count ∧ g'.labs = g.labs ∧
      g'.field.cards_static = g.field.cards_static ∧
      g'.field.direction = g.field.direction ∧
      g.field.pos + 2 ≤ g'.field.pos ∧
      Field.lastCard g'.field = "ventilation" := by
  unfold loopIter
  rw [drawnCard_eq, if_pos hv]
  have hcs2 : ((drawnField g).nextInvisible).2.cards_static = g.field.cards_static := rfl
  have hsome : (Field.seekLoop g.field.cards_static.length
      ((drawnField g).nextInvisible).1 "ventilation"
      ((drawnField g).nextInvisible).2).isSome = true := by
    refine Field.seekLoop_mem_isSome _ _ _ _ ?_ ?_
    · rw [hcs2]
      exact hvent
    · rw [hcs2]
  obtain ⟨f3, hf3⟩ := Option.isSome_iff_exists.mp hsome
  obtain ⟨hcs, hdir, _, hpos, hdisj⟩ := Field.seekLoop_inv _ _ _ _ _ hf3
  rw [hf3]
  refine ⟨_, rfl, rfl, rfl, rfl, rfl, rfl, ?_, ?_, ?_, ?_⟩
  · exact hcs.trans hcs2
  · exact hdir
  · exact hpos
  · cases hdisj with
    | inl hl =>
      rw [hl.2, Field.nextInvisible_lastCard, ← Field.nextInvisible_fst]
      exact hl.1
    | inr hr => exact hr

/-- C10: replay_correct re-seeks the cursor to the round's starting lab
card under the round's direction and resets the dice attributes to the
initial snapshot before the replaying run starts. -/
theorem replay_resets_to_initial (g : GameState)
    (hl : g.labs = g.init_labs)
    (hd : g.field.direction = g.labs.1)
    (ha : g.field.animation = false)
    (hm : g.labs.2 ++ "_lab" ∈ g.field.cards_static) :
    ∃ g', replayPrep g.field.cards_static.length g = some g' ∧
      g'.eyes = g.init_eyes ∧ g'.stripes = g.init_stripes ∧
      g'.colors = g.init_colors ∧ g'.labs = g.init_labs ∧
      g'.count = g.count ∧
      g'.field.direction = g.init_labs.1 ∧
      g'.field.cards_static = g.field.cards_static ∧
      Field.lastCard g'.field = g.init_labs.2 ++ "_lab" := by
  have hct : Field.cycleToStart g.field.cards_static.length g.field
      (g.labs.2 ++ "_lab") g.labs.1
      = Field.seekLoop g.field.cards_static.length "" (g.labs.2 ++ "_lab") g.field := by
    simp only [Field.cycleToStart]
    rw [if_neg (not_not_intro hd)]
  have hsome : (Field.seekLoop g.field.cards_static.length ""
      (g.labs.2 ++ "_lab") g.field).isSome = true :=
    Field.seekLoop_mem_isSome _ _ _ _ hm (Nat.le_refl _)
  obtain ⟨f1, hf1⟩ := Option.isSome_iff_exists.mp hsome
  obtain ⟨hcs, hdir, hanim, _, hdisj⟩ := Field.seekLoop_inv _ _ _ _ _ hf1
  have hlast : f1.lastCard = g.labs.2 ++ "_lab" := by
    cases hdisj with
    | inl hx =>
      exfalso
      have hlen := congrArg String.length hx.1
      rw [String.length_append] at hlen
      have h0 : ("" : String).length = 0 := rfl
      have h4 : ("_lab" : String).length = 4 := rfl
      omega
    | inr hr => exact hr
  have ha1 : f1.animation = false := by rw [hanim, ha]
  have hrp : replayPrep g.field.cards_static.length g = some
      { field := { f1 with animation := true },
        labs := g.init_labs, eyes := g.init_eyes, stripes := g.init_stripes,
        colors := g.init_colors, init_labs := g.init_labs,
        init_eyes := g.init_eyes, init_stripes := g.init_stripes,
        init_colors := g.init_colors, count := g.count } := by
    unfold replayPrep
    rw [hct, hf1]
    show (if f1.animation = true then none else some _) = _
    rw [ha1]
    exact if_neg (fun hq => Bool.noConfusion hq)
  refine ⟨_, hrp, rfl, rfl, rfl, rfl, rfl, ?_, ?_, ?_⟩
  · show f1.direction = g.init_labs.1
    rw [hdir, hd, hl]
  · exact hcs
  · show f1.lastCard = g.init_labs.2 ++ "_lab"
    rw [hlast, hl]

/-! Concrete states used by the counterexamples and the witnesses. -/

/-- A field template with the common bookkeeping defaults. -/
def baseField : Field :=
  { animation := false, cards_static := [], pos := 0, direction := "white",
    next_count := 0, current_card_filename := "" }

/-- A round whose two-card cyclic deck alternates one mutation card with
one lab marker, so no two mutation-kind draws are ever consecutive. -/
def mutState : GameState :=
  { field := { baseField with cards_static := ["eyes_mutation", "red_lab"] },
    labs := ("white", "red"), eyes := 1, stripes := 1, colors := 1,
    init_labs := ("white", "red"), init_eyes := 1, init_stripes := 1,
    init_colors := 1, count := 0 }

/-- A round about to draw a lab marker while the mutation counter stands
at 2. -/
def labCountState : GameState :=
  { mutState with
    field := { baseField with cards_static := ["red_lab"] },
    count := 2 }

/-- A round about to draw a findable card that does not match the
current target. -/
def nonMatchState : GameState :=
  { mutState with field := { baseField with cards_static := ["red_lab"] } }

/-- A round whose first draw matches the current target
red_stripe_1. -/
def foundState : GameState :=
  { mutState with
    field := { baseField with cards_static := ["red_stripe_1", "red_lab"] } }

/-- A round about to draw a ventilation card, with the paired ventilation
two positions further on. -/
def ventState : GameState :=
  { mutState with field := { baseField with
      cards_static := ["ventilation", "blue_lab", "ventilation", "red_dot_1"] } }

/-- A round after a silent resolution that mutated every attribute away
from the initial dice snapshot, ready for replay_correct. -/
def replayState : GameState :=
  { field := { baseField with cards_static := ["red_lab", "blue_stripe_1"] },
    labs := ("white", "red"), eyes := 2, stripes := 2, colors := 2,
    init_labs := ("white", "red"), init_eyes := 1, init_stripes := 1,
    init_colors := 1, count := 0 }

/-- C1 counterexample: the mutation counter is not reset by non-mutation
draws.  In mutState the mutation draws are never consecutive (the deck
alternates eyes_mutation with red_lab), yet the seventh iteration — the
fourth mutation-kind draw overall — yields the death outcome; and in
labCountState a lab-marker draw leaves the counter at 2 instead of
resetting it to 0. -/
theorem run_death_without_consecutive_mutations :
    runFuel 0 7 mutState = ["", "", "", "eyes_mutation"] ∧
    (loopIter 0 labCountState).map (fun p => p.1.count) = some 2 :=
  ⟨rfl, rfl⟩

/-- Witness for the C1 theorem at the concrete state mutState. -/
theorem run_mutation_count_total_witness :
    (Field.nextCard mutState.field ≠ "ventilation") ∧
    (∃ g' ys, loopIter 0 mutState = some (g', ys) ∧
      (strEndsWith (Field.nextCard mutState.field) "_mutation" = true →
        g'.count = mutState.count + 1 ∧
        ys = if mutState.count = 3 then [Field.nextCard mutState.field] else []) ∧
      (strEndsWith (Field.nextCard mutState.field) "_mutation" = false →
        g'.count = mutState.count)) :=
  ⟨by decide, run_mutation_count_total mutState 0 (by decide)⟩

/-- C2 counterexample: a non-ventilation, non-mutation draw that does not
match the target produces exactly one value (the frame marker), not
two. -/
theorem nonmatching_draw_single_yield :
    (loopIter 0 nonMatchState).map (fun p => p.2.length) = some 1 :=
  rfl

/-- Witness for the C2 theorem at the concrete state nonMatchState. -/
theorem run_yields_per_draw_witness :
    (Field.nextCard nonMatchState.field ≠ "ventilation") ∧
    (strEndsWith (Field.nextCard nonMatchState.field) "_mutation" = false) ∧
    (∃ g', loopIter 0 nonMatchState = some (g',
      if Field.nextCard nonMatchState.field = cardToFind nonMatchState then
        [Field.nextCard nonMatchState.field, ""] else [""])) :=
  ⟨by decide, by decide,
   run_yields_per_draw nonMatchState 0 (by decide) (by decide)⟩

/-- C3 counterexample: neither the match outcome nor the death outcome is
terminal.  In foundState the match red_stripe_1 is reported on the first
draw and the generator still produces the frame marker of that draw plus
the marker of a further draw; in mutState the death outcome of the fourth
mutation draw is followed by yet another produced value. -/
theorem outcomes_after_found_and_death :
    runFuel 0 2 foundState = ["red_stripe_1", "", ""] ∧
    runFuel 0 9 mutState = ["", "", "", "eyes_mutation", ""] :=
  ⟨rfl, rfl⟩

/-- Witness for the C3 theorem at the concrete state foundState. -/
theorem run_found_not_terminal_witness :
    (Field.nextCard foundState.field ≠ "ventilation") ∧
    (strEndsWith (Field.nextCard foundState.field) "_mutation" = false) ∧
    (Field.nextCard foundState.field = cardToFind foundState) ∧
    (∃ g', loopIter 0 foundState = some (g', [cardToFind foundState, ""]) ∧
      runFuel 0 (1 + 1) foundState =
        cardToFind foundState :: "" :: runFuel 0 1 g') :=
  ⟨by decide, by decide, by decide,
   run_found_not_terminal foundState 0 1 (by decide) (by decide) (by decide)⟩

/-- Witness for the C4 theorem at the concrete state ventState. -/
theorem run_ventilation_skip_witness :
    (Field.nextCard ventState.field = "ventilation") ∧
    ("ventilation" ∈ ventState.field.cards_static) ∧
    (∃ g', loopIter ventState.field.cards_static.length ventState = some (g', []) ∧
      g'.eyes = ventState.eyes ∧ g'.stripes = ventState.stripes ∧
      g'.colors = ventState.colors ∧ g'.count = ventState.count ∧
      g'.labs = ventState.labs ∧
      g'.field.cards_static = ventState.field.cards_static ∧
      g'.field.direction = ventState.field.direction ∧
      ventState.field.pos + 2 ≤ g'.field.pos ∧
      Field.lastCard g'.field = "ventilation") :=
  ⟨by decide, by decide, run_ventilation_skip ventState (by decide) (by decide)⟩

/-- Witness for the C10 theorem at the concrete state replayState. -/
theorem replay_resets_to_initial_witness :
    (replayState.labs = replayState.init_labs) ∧
    (replayState.field.direction = replayState.labs.1) ∧
    (replayState.field.animation = false) ∧
    (replayState.labs.2 ++ "_lab" ∈ replayState.field.cards_static) ∧
    (∃ g', replayPrep replayState.field.cards_static.length replayState = some g' ∧
      g'.eyes = replayState.init_eyes ∧ g'.stripes = replayState.init_stripes ∧
      g'.colors = replayState.init_colors ∧ g'.labs = replayState.init_labs ∧
      g'.count = replayState.count ∧
      g'.field.direction = replayState.init_labs.1 ∧
      g'.field.cards_static = replayState.field.cards_static ∧
      Field.lastCard g'.field = replayState.init_labs.2 ++ "_lab") :=
  ⟨by decide, by decide, by decide, by decide,
   replay_resets_to_initial replayState (by decide) (by decide) (by decide)
     (by decide)⟩

end Menavky
